import Mathlib

/-!
Verification of the SIRS credit-insight rule engine.

The Python sources under credit_insight_engine/engine are shallowly embedded:
records are association lists from variable names to scalar values, the
condition evaluator is modelled over an expression AST together with an
abstract interpreter outcome type (the asteval library is external to the
repository), and the rule-matching loop of RuleEngine.process_data is
embedded as a fold over the (record, rule) pairs in iteration order.
-/

namespace SIRS

/-- Python scalar values as they occur in normalized records, rule data and
the DEFAULT_VALUES table of ConditionParser.  Floats are modelled as
rationals. -/
inductive Value where
  | int (n : Int)
  | float (q : ℚ)
  | bool (b : Bool)
  | str (s : String)
  | none
deriving DecidableEq

/-- Python truthiness of a scalar value. -/
def pyTruthy : Value → Bool
  | .int n => n != 0
  | .float q => q != 0
  | .bool b => b
  | .str s => s != ""
  | .none => false

/-- The numeric content of a value, when Python treats it as a number
(booleans count as 0 or 1). -/
def numVal : Value → Option ℚ
  | .int n => some (n : ℚ)
  | .float q => some q
  | .bool b => some (if b then 1 else 0)
  | _ => Option.none

/-- Python equality on scalar values: numbers compare numerically across
int, float and bool; strings compare to strings; otherwise unequal. -/
def pyEq (a b : Value) : Bool :=
  match a, b with
  | .str s, .str t => s == t
  | .none, .none => true
  | _, _ =>
    match numVal a, numVal b with
    | some x, some y => x == y
    | _, _ => false

/-- A normalized record: a flat mapping from variable names to scalar
values, modelled as an association list looked up first-match-first. -/
abbrev RecordData := List (String × Value)

/-- Python dict assignment under first-match lookup semantics: the new
binding shadows any older one. -/
def dictSet (r : RecordData) (k : String) (v : Value) : RecordData :=
  (k, v) :: r

/-- record.get(key, default). -/
def getD (r : RecordData) (k : String) (d : Value) : Value :=
  (r.lookup k).getD d

/-- Python membership test: key in record. -/
def hasKey (r : RecordData) (k : String) : Bool :=
  (r.lookup k).isSome

/-! ## RuleEngine constants (credit_rule_engine.py) -/

/-- RuleEngine.REVOLVING_FACILITIES. -/
def REVOLVING_FACILITIES : List String := ["CRDTCARD", "OVRDRAFT"]

/-- RuleEngine.INSTALLMENT_FACILITIES. -/
def INSTALLMENT_FACILITIES : List String := ["HSLNFNCE", "PCPASCAR", "OTLNFNCE", "MICROEFN"]

/-- The aggregate indicator keys of RuleEngine._detect_record_type. -/
def aggregate_indicators : List String :=
  ["numberofloans", "numapplicationslast12months", "distinct_account_types",
   "trade_ref_amount_overdue", "legal_cases_settled", "legal_cases_active"]

/-- RuleEngine._detect_record_type: a record with any aggregate indicator key
is aggregate; otherwise it is a loan record (also in the fallback case
where no facility key is present). -/
def detectRecordType (record : RecordData) : String :=
  if aggregate_indicators.any (fun k => hasKey record k) then "aggregate"
  else if hasKey record "facility_type" || hasKey record "loantype" then "loan"
  else "loan"

/-- The chained lookup of RuleEngine._is_revolving_credit: Python or takes
the first truthy of the three alias keys, last value otherwise. -/
def facilityTypeOf (record : RecordData) : Value :=
  let a := getD record "facility_type" (Value.str "")
  let b := getD record "loan_type" (Value.str "")
  let c := getD record "loantype" (Value.str "")
  if pyTruthy a then a else if pyTruthy b then b else c

/-- RuleEngine._is_revolving_credit: the resolved facility type is a member
of REVOLVING_FACILITIES. -/
def isRevolvingCredit (record : RecordData) : Bool :=
  REVOLVING_FACILITIES.any (fun s => pyEq (facilityTypeOf record) (Value.str s))

/-- Python substring containment: needle in hay. -/
def containsSub (needle hay : List Char) : Bool :=
  hay.tails.any (fun t => needle.isPrefixOf t)

/-- A rule as loaded from rules.json.  Fields absent from the JSON object
default to the empty string (and 0 for the impact score), matching the
rule.get(...) accesses of the engine. -/
structure Rule where
  id : String
  label : String
  group : String
  condition : List Char
  template : String
  recommendation : String
  priority : String
  data_source : String
  compound_type : String
  impact_score : Int
deriving DecidableEq

/-- RuleEngine._should_apply_rule: group-driven routing of a rule to a
record, with condition-text substring heuristics for the compound groups
and a fallback on aggregate variable names for unknown groups. -/
def shouldApplyRule (rule : Rule) (record : RecordData) : Bool :=
  let condition := rule.condition
  let record_type := detectRecordType record
  let is_loan_record : Bool := record_type == "loan"
  let is_aggregate : Bool := record_type == "aggregate"
  if rule.group == "utilization" then
    is_loan_record && isRevolvingCredit record
  else if rule.group == "payment_conduct" then
    is_loan_record
  else if rule.group == "credit_applications" then
    is_aggregate
  else if rule.group == "credit_profile" then
    is_aggregate
  else if rule.group == "legal_financial" then
    if containsSub "trade_ref".data condition then is_aggregate
    else if ["legal_cases", "bankruptcy", "director_windingup"].any
        (fun k => containsSub k.data condition) then is_aggregate
    else is_aggregate
  else if rule.group == "portfolio_health" then
    is_aggregate
  else if rule.group == "positive_behaviors" then
    if containsSub "payment_conduct_all_zero".data condition then is_loan_record
    else if containsSub "creditutilizationratio".data condition &&
        (containsSub "is_revolving".data condition ||
         containsSub "revolving".data (rule.id.data.map Char.toLower)) then
      is_loan_record && isRevolvingCredit record
    else if containsSub "ctos_score".data condition then is_aggregate
    else if ["oldest_account_months", "numapplicationslast12months", "legal_cases",
        "distinct_account_types"].any (fun k => containsSub k.data condition) then
      is_aggregate
    else is_aggregate
  else if rule.group == "risk_amplification" then
    if containsSub "creditutilizationratio".data condition &&
        containsSub "payment_conduct_code".data condition then
      is_loan_record && isRevolvingCredit record
    else if containsSub "creditutilizationratio".data condition &&
        containsSub "numapplicationslast12months".data condition then is_aggregate
    else if containsSub "legal_cases_active".data condition then is_aggregate
    else is_aggregate
  else if rule.group == "early_warnings" then
    if containsSub "ctos_score".data condition then is_aggregate
    else if containsSub "creditutilizationratio".data condition && is_loan_record then
      isRevolvingCredit record
    else if containsSub "numapplicationslast12months".data condition then is_aggregate
    else if containsSub "payment_conduct_code".data condition &&
        containsSub "oldest_account_months".data condition then is_loan_record
    else is_loan_record
  else
    if ["numberofloans", "numapplicationslast12months", "ctos_score",
        "legal_cases", "trade_ref", "distinct_account_types"].any
        (fun k => containsSub k.data condition) then is_aggregate
    else is_loan_record

/-! ## ConditionParser (condition_parser.py) -/

/-- ConditionParser.DEFAULT_VALUES: the per-variable default table. -/
def DEFAULT_VALUES : RecordData :=
  [("creditutilizationratio", .float 0),
   ("balance", .float 0),
   ("limit", .float 0),
   ("payment_conduct_code", .int 0),
   ("mon_arrears", .int 0),
   ("inst_arrears", .int 0),
   ("utilization", .float 0),
   ("numberofloans", .int 0),
   ("numapplicationslast12months", .int 0),
   ("numpendingapplications", .int 0),
   ("numapprovedapplications", .int 0),
   ("distinct_account_types", .int 0),
   ("oldest_account_months", .int 0),
   ("oldest_account_years", .float 0),
   ("accounts_per_lender", .int 0),
   ("secured_loan_ratio", .float 0),
   ("recent_enquiries", .int 0),
   ("application_decline_rate", .float 0),
   ("trade_ref_amount_overdue", .float 0),
   ("trade_ref_reminder_count", .int 0),
   ("legal_cases_settled", .int 0),
   ("legal_cases_active", .int 0),
   ("director_windingup_company", .int 0),
   ("has_credit_card", .bool false),
   ("has_installment_loan", .bool false),
   ("bankruptcy_active", .bool false),
   ("payment_conduct_all_zero", .bool false),
   ("is_revolving", .bool false),
   ("is_secured", .bool false),
   ("facility_type", .str ""),
   ("loantype", .str ""),
   ("loan_type", .str ""),
   ("lendertype", .str ""),
   ("lender", .str ""),
   ("account_type", .str ""),
   ("aging_bucket", .str ""),
   ("case_details", .str ""),
   ("case_types", .str ""),
   ("company_name", .str ""),
   ("lender_name", .str ""),
   ("status", .str ""),
   ("Facility", .str ""),
   ("Lender_Type", .str ""),
   ("name", .str ""),
   ("ic_number", .str ""),
   ("ctos_score", .int 0)]

/-- The variable names that carry a documented default. -/
def declaredVars : List String := DEFAULT_VALUES.map Prod.fst

/-- The numeric_fields list of ConditionParser._prepare_data. -/
def numeric_fields : List String :=
  ["creditutilizationratio", "balance", "limit", "utilization",
   "secured_loan_ratio", "application_decline_rate", "oldest_account_years"]

/-- The integer_fields list of ConditionParser._prepare_data. -/
def integer_fields : List String :=
  ["payment_conduct_code", "numberofloans", "numapplicationslast12months",
   "numpendingapplications", "distinct_account_types", "oldest_account_months",
   "accounts_per_lender", "recent_enquiries", "trade_ref_reminder_count",
   "legal_cases_settled", "legal_cases_active", "director_windingup_company",
   "mon_arrears", "inst_arrears", "ctos_score"]

/-- The boolean_fields list of ConditionParser._prepare_data. -/
def boolean_fields : List String :=
  ["has_credit_card", "has_installment_loan", "bankruptcy_active",
   "payment_conduct_all_zero", "is_revolving", "is_secured"]

/-- Decimal digits to a natural number. -/
def digitsToNat (ds : List Char) : Nat :=
  ds.foldl (fun a c => a * 10 + (c.toNat - 48)) 0

/-- Strip leading and trailing whitespace. -/
def trimWs (s : List Char) : List Char :=
  ((s.dropWhile Char.isWhitespace).reverse.dropWhile Char.isWhitespace).reverse

/-- Parse an unsigned decimal literal (digits with an optional fractional
part); any other character makes the parse fail, as Python float() does. -/
def parseUnsignedQ (t : List Char) : Option ℚ :=
  let ip := t.takeWhile Char.isDigit
  let rest := t.dropWhile Char.isDigit
  if rest = [] then
    if ip.isEmpty then Option.none else some (digitsToNat ip : ℚ)
  else if rest.head? = some '.' then
    let frac := rest.tail
    let fp := frac.takeWhile Char.isDigit
    let rest2 := frac.dropWhile Char.isDigit
    if rest2.isEmpty && !(ip.isEmpty && fp.isEmpty) then
      some ((digitsToNat ip : ℚ) + (digitsToNat fp : ℚ) / (10 : ℚ) ^ fp.length)
    else Option.none
  else Option.none

/-- Python float() on a string: optional surrounding whitespace, optional
sign, then an unsigned decimal literal. -/
def parseFloatQ (s : List Char) : Option ℚ :=
  let t := trimWs s
  if t.head? = some '+' then parseUnsignedQ t.tail
  else if t.head? = some '-' then (parseUnsignedQ t.tail).map (fun q => -q)
  else parseUnsignedQ t

/-- Python float(value) over scalar values: numbers and numeric strings
convert, everything else raises (modelled as Option.none). -/
def pyFloat : Value → Option ℚ
  | .int n => some (n : ℚ)
  | .float q => some q
  | .bool b => some (if b then 1 else 0)
  | .str s => parseFloatQ s.data
  | .none => Option.none

/-- Truncation toward zero, as Python int() applied to a float. -/
def ratTrunc (q : ℚ) : Int := q.num / (q.den : Int)

/-- The per-field float coercion step of _prepare_data: a present,
non-None value is converted with float(), failure falling back to 0.0. -/
def coerceFloatField (r : RecordData) (field : String) : RecordData :=
  match r.lookup field with
  | some v =>
    if v = Value.none then r
    else
      match pyFloat v with
      | some q => dictSet r field (.float q)
      | Option.none => dictSet r field (.float 0)
  | Option.none => r

/-- The per-field integer coercion step of _prepare_data: int(float(value)),
failure falling back to 0. -/
def coerceIntField (r : RecordData) (field : String) : RecordData :=
  match r.lookup field with
  | some v =>
    if v = Value.none then r
    else
      match pyFloat v with
      | some q => dictSet r field (.int (ratTrunc q))
      | Option.none => dictSet r field (.int 0)
  | Option.none => r

/-- The per-field boolean coercion step of _prepare_data: bool(value). -/
def coerceBoolField (r : RecordData) (field : String) : RecordData :=
  match r.lookup field with
  | some v => if v = Value.none then r else dictSet r field (.bool (pyTruthy v))
  | Option.none => r

/-- The override loop of _prepare_data: defaults first, then every
non-None entry of the supplied data. -/
def overrideDefaults (data : RecordData) : RecordData :=
  data.foldl (fun acc kv => if kv.2 = Value.none then acc else dictSet acc kv.1 kv.2)
    DEFAULT_VALUES

/-- ConditionParser._prepare_data: defaults, data override, then float,
integer and boolean coercion passes. -/
def prepareData (data : RecordData) : RecordData :=
  let prepared := overrideDefaults data
  let prepared := numeric_fields.foldl coerceFloatField prepared
  let prepared := integer_fields.foldl coerceIntField prepared
  boolean_fields.foldl coerceBoolField prepared

/-! ### Condition normalization (_normalize_condition) -/

/-- Python str.replace on character lists: replace non-overlapping
occurrences left to right.  Fuel-driven so that it reduces by evaluation;
the initial fuel s.length + 1 always suffices. -/
def listReplaceAux : Nat → List Char → List Char → List Char → List Char
  | 0, s, _, _ => s
  | _ + 1, [], _, _ => []
  | fuel + 1, c :: rest, old, new =>
    if old ≠ [] ∧ old.isPrefixOf (c :: rest) then
      new ++ listReplaceAux fuel ((c :: rest).drop old.length) old new
    else
      c :: listReplaceAux fuel rest old new

/-- Python str.replace. -/
def listReplace (s old new : List Char) : List Char :=
  listReplaceAux (s.length + 1) s old new

/-- The replacement table of _normalize_condition. -/
def REPLACEMENTS : List (List Char × List Char) :=
  [("== true".data, "== True".data),
   ("== false".data, "== False".data),
   ("!= true".data, "!= True".data),
   ("!= false".data, "!= False".data),
   (" true ".data, " True ".data),
   (" false ".data, " False ".data)]

/-- Python str.split() without arguments: maximal runs of non-whitespace
characters, with no empty pieces.  Fuel-driven; s.length suffices. -/
def splitWsAux : Nat → List Char → List (List Char)
  | 0, _ => []
  | _ + 1, [] => []
  | fuel + 1, c :: rest =>
    if c.isWhitespace then splitWsAux fuel rest
    else
      (c :: rest.takeWhile (fun d => !d.isWhitespace)) ::
        splitWsAux fuel (rest.dropWhile (fun d => !d.isWhitespace))

/-- Python str.split(). -/
def splitWs (s : List Char) : List (List Char) :=
  splitWsAux s.length s

/-- Python " ".join. -/
def joinSpace : List (List Char) → List Char
  | [] => []
  | [w] => w
  | w :: ws => w ++ ' ' :: joinSpace ws

/-- ConditionParser._normalize_condition: boolean-literal replacements and
whitespace cleanup. -/
def normalizeCondition (condition : List Char) : List Char :=
  if condition = [] then []
  else
    let normalized := REPLACEMENTS.foldl (fun acc p => listReplace acc p.1 p.2) condition
    joinSpace (splitWs normalized)

/-! ### Evaluation outcomes and exception dispatch (evaluate) -/

/-- The Python exception classes distinguished by the except clauses of
ConditionParser.evaluate. -/
inductive PyExc where
  | nameError (msg : String)
  | syntaxError (msg : String)
  | otherExc (msg : String)
deriving DecidableEq

/-- What the call self.aeval(normalized_condition) did: produced a value
(asteval returns Python None when it collected an internal error), or let
an exception propagate. -/
inductive PyOutcome where
  | val (v : Value)
  | raised (e : PyExc)
deriving DecidableEq

/-- The observable result of ConditionParser.evaluate: a boolean return, or
a raised ParserError carrying a message. -/
inductive EvalResult where
  | ret (b : Bool)
  | parserError (msg : String)
deriving DecidableEq

/-- The result handling and exception dispatch of ConditionParser.evaluate:
a None result and a NameError both return False, a SyntaxError and any
other exception are re-raised as ParserError. -/
def evaluateDispatch : PyOutcome → EvalResult
  | .val Value.none => .ret false
  | .val v => .ret (pyTruthy v)
  | .raised (.nameError _) => .ret false
  | .raised (.syntaxError m) => .parserError ("Invalid condition syntax: " ++ m)
  | .raised (.otherExc m) => .parserError ("Failed to evaluate condition: " ++ m)

/-- ConditionParser.evaluate at the string level: normalize the condition,
return False when it is empty, otherwise dispatch on what the interpreter
did with the normalized condition.  The aeval argument abstracts the
external asteval library applied to the prepared data. -/
def evaluateStr (condition : List Char) (aeval : List Char → PyOutcome) : EvalResult :=
  let norm := normalizeCondition condition
  if norm = [] then .ret false
  else evaluateDispatch (aeval norm)

/-! ### The expression language evaluated by asteval -/

/-- Arithmetic operators of rule conditions. -/
inductive BinOp where
  | add
  | sub
  | mul
  | div
deriving DecidableEq

/-- Comparison operators of rule conditions. -/
inductive CmpOp where
  | lt
  | le
  | gt
  | ge
  | eq
  | ne
deriving DecidableEq

/-- A parsed rule condition: literals, variables, arithmetic, comparisons
and boolean connectives. -/
inductive Expr where
  | lit (v : Value)
  | var (name : String)
  | binop (op : BinOp) (a b : Expr)
  | cmp (op : CmpOp) (a b : Expr)
  | boolAnd (a b : Expr)
  | boolOr (a b : Expr)
  | boolNot (a : Expr)
deriving DecidableEq

/-- The variable names occurring in an expression. -/
def exprVars : Expr → List String
  | .lit _ => []
  | .var n => [n]
  | .binop _ a b => exprVars a ++ exprVars b
  | .cmp _ a b => exprVars a ++ exprVars b
  | .boolAnd a b => exprVars a ++ exprVars b
  | .boolOr a b => exprVars a ++ exprVars b
  | .boolNot a => exprVars a

/-- Runtime faults of the expression interpreter. -/
inductive Fault where
  | nameError (name : String)
  | typeError (msg : String)
  | zeroDivision
deriving DecidableEq

/-- Whether both operands are of Python integer kind (int or bool), so that
arithmetic stays integral. -/
def isIntKind : Value → Bool
  | .int _ => true
  | .bool _ => true
  | _ => false

/-- Python arithmetic on scalar values: numbers combine numerically (true
division always produces a float), strings concatenate under +, anything
else is a TypeError. -/
def evalBinop (op : BinOp) (a b : Value) : Except Fault Value :=
  match numVal a, numVal b with
  | some x, some y =>
    match op with
    | .add => .ok (if isIntKind a && isIntKind b then .int (x + y).num else .float (x + y))
    | .sub => .ok (if isIntKind a && isIntKind b then .int (x - y).num else .float (x - y))
    | .mul => .ok (if isIntKind a && isIntKind b then .int (x * y).num else .float (x * y))
    | .div => if y = 0 then .error .zeroDivision else .ok (.float (x / y))
  | _, _ =>
    match op, a, b with
    | .add, .str s, .str t => .ok (.str (s ++ t))
    | _, _, _ => .error (.typeError "unsupported operand types")

/-- Comparison of rationals. -/
def cmpQ (op : CmpOp) (x y : ℚ) : Bool :=
  match op with
  | .lt => x < y
  | .le => x ≤ y
  | .gt => y < x
  | .ge => y ≤ x
  | .eq => x == y
  | .ne => x != y

/-- Lexicographic comparison of strings. -/
def cmpStr (op : CmpOp) (s t : String) : Bool :=
  match op with
  | .lt => s < t
  | .le => s < t || s == t
  | .gt => t < s
  | .ge => t < s || s == t
  | .eq => s == t
  | .ne => s != t

/-- Python comparison on scalar values: equality never faults, ordering
requires two numbers or two strings. -/
def evalCmp (op : CmpOp) (a b : Value) : Except Fault Value :=
  match op with
  | .eq => .ok (.bool (pyEq a b))
  | .ne => .ok (.bool (!pyEq a b))
  | _ =>
    match numVal a, numVal b with
    | some x, some y => .ok (.bool (cmpQ op x y))
    | _, _ =>
      match a, b with
      | .str s, .str t => .ok (.bool (cmpStr op s t))
      | _, _ => .error (.typeError "unorderable types")

/-- Evaluation of a parsed condition against an environment: variables are
looked up in the environment, an absent variable is a NameError, and the
boolean connectives short-circuit with Python value semantics. -/
def evalExpr : Expr → RecordData → Except Fault Value
  | .lit v, _ => .ok v
  | .var n, env =>
    match env.lookup n with
    | some v => .ok v
    | Option.none => .error (.nameError n)
  | .binop op a b, env =>
    match evalExpr a env with
    | .ok va =>
      match evalExpr b env with
      | .ok vb => evalBinop op va vb
      | .error f => .error f
    | .error f => .error f
  | .cmp op a b, env =>
    match evalExpr a env with
    | .ok va =>
      match evalExpr b env with
      | .ok vb => evalCmp op va vb
      | .error f => .error f
    | .error f => .error f
  | .boolAnd a b, env =>
    match evalExpr a env with
    | .ok va => if pyTruthy va then evalExpr b env else .ok va
    | .error f => .error f
  | .boolOr a b, env =>
    match evalExpr a env with
    | .ok va => if pyTruthy va then .ok va else evalExpr b env
    | .error f => .error f
  | .boolNot a, env =>
    match evalExpr a env with
    | .ok va => .ok (.bool (!pyTruthy va))
    | .error f => .error f

/-- The asteval call on an already parsed condition: the interpreter
collects runtime errors internally and returns Python None instead of
letting them propagate. -/
def astevalRun (e : Expr) (env : RecordData) : PyOutcome :=
  match evalExpr e env with
  | .ok v => .val v
  | .error _ => .val Value.none

/-- ConditionParser.evaluate on a parsed condition: prepare the data with
defaults and coercions, run the interpreter, dispatch the outcome. -/
def evalConditionExpr (e : Expr) (data : RecordData) : EvalResult :=
  evaluateDispatch (astevalRun e (prepareData data))

/-! ## RuleEngine.process_data and generate_report -/

/-- An insight as constructed by RuleEngine.process_data. -/
structure Insight where
  label : String
  type : String
  message : String
  recommendation : String
  severity : String
  priority : String
  data_source : String
  record_type : String
  rule_id : String
  rule_group : String
  impact_score : Int
  data : RecordData
deriving DecidableEq

/-- The severity_map of process_data. -/
def severityMap : List (String × String) :=
  [("critical", "critical"), ("high", "high"), ("medium", "medium"),
   ("low", "low"), ("positive", "positive")]

/-- severity_map.get(priority, medium). -/
def severityOf (priority : String) : String :=
  (severityMap.lookup priority).getD "medium"

/-- Python dict merge followed by alias insertion, as in
RuleEngine._build_render_context.  The oldest-account-years division
raises a TypeError on a non-numeric month value; the internal except of
the method then returns the context built so far. -/
def pyMergeDicts (a b : RecordData) : RecordData :=
  b.foldl (fun acc kv => dictSet acc kv.1 kv.2) a

/-- RuleEngine._build_render_context. -/
def buildRenderContext (record personal : RecordData) : RecordData :=
  let ctx0 := pyMergeDicts personal record
  let ctx1 :=
    if hasKey ctx0 "loantype" then ctx0
    else dictSet ctx0 "loantype" (getD ctx0 "facility_type" (.str ""))
  let ctx2 :=
    if hasKey ctx1 "Facility" then ctx1
    else dictSet ctx1 "Facility" (getD ctx1 "loantype" (getD ctx1 "facility_type" (.str "")))
  let ctx3 :=
    if hasKey ctx2 "Lender_Type" then ctx2
    else dictSet ctx2 "Lender_Type" (getD ctx2 "lendertype" (getD ctx2 "lender" (.str "")))
  if hasKey ctx3 "oldest_account_years" || !hasKey ctx3 "oldest_account_months" then ctx3
  else
    let m := getD ctx3 "oldest_account_months" Value.none
    if pyTruthy m then
      match numVal m with
      | some q => dictSet ctx3 "oldest_account_years" (.float (q / 12))
      | Option.none => ctx3
    else dictSet ctx3 "oldest_account_years" (.float 0)

/-- The FIELD_ALIASES table of RuleEngine. -/
def FIELD_ALIASES : List (String × String) :=
  [("Facility", "loantype"), ("Lender_Type", "lendertype"),
   ("creditutilizationratio", "creditutilizationratio")]

/-- RuleEngine._apply_template_aliases: rewrite the brace-delimited alias
forms of each known template variable to its normalized key. -/
def applyTemplateAliases (template : String) : String :=
  if template = "" then template
  else
    let out := FIELD_ALIASES.foldl
      (fun acc p =>
        let t1 := listReplace acc ("\x7b\x7b" ++ p.1 ++ "\x7d\x7d").data
          ("\x7b\x7b " ++ p.2 ++ " \x7d\x7d").data
        let t2 := listReplace t1 ("\x7b\x7b " ++ p.1 ++ " \x7d\x7d").data
          ("\x7b\x7b " ++ p.2 ++ " \x7d\x7d").data
        listReplace t2 ("\x7b" ++ p.1 ++ "\x7d").data ("\x7b" ++ p.2 ++ "\x7d").data)
      template.data
    String.mk out

/-- The exceptions that a single (rule, record) iteration of process_data
can observe: a ParserError from evaluate, or a TemplateError from the
renderer. -/
inductive RuleExc where
  | parserErr (msg : String)
  | renderErr (msg : String)
deriving DecidableEq

/-- The body of one iteration of the inner rule loop of process_data, up to
but excluding the deduplication check: decide applicability, skip an empty
condition, evaluate the condition, render message and recommendation, and
build the insight together with its deduplication key.  The interp
argument abstracts asteval on the normalized condition against the current
record, the renderer argument abstracts TemplateRenderer.render_template
(which raises on failure). -/
def evalRuleOnRecord (interp : List Char → RecordData → PyOutcome)
    (renderer : String → RecordData → Except String String)
    (ctx record : RecordData) (record_type : String) (rule : Rule) :
    Except RuleExc (Option (String × Insight)) :=
  if !shouldApplyRule rule record then .ok Option.none
  else if rule.condition = [] then .ok Option.none
  else
    match evaluateStr rule.condition (fun norm => interp norm record) with
    | .parserError m => .error (.parserErr m)
    | .ret false => .ok Option.none
    | .ret true =>
      let templateForRender := applyTemplateAliases rule.template
      match (if templateForRender ≠ "" then renderer templateForRender ctx else .ok "") with
      | .error m => .error (.renderErr m)
      | .ok message =>
        let recommendationForRender := applyTemplateAliases rule.recommendation
        match (if recommendationForRender ≠ "" then renderer recommendationForRender ctx
               else .ok "") with
        | .error m => .error (.renderErr m)
        | .ok recommendation =>
          let key := rule.label ++ ":" ++ rule.compound_type ++ ":" ++ message
          .ok (some (key,
            { label := rule.label
              type := rule.compound_type
              message := message
              recommendation := recommendation
              severity := severityOf rule.priority.toLower
              priority := rule.priority.toLower
              data_source := rule.data_source
              record_type := record_type
              rule_id := rule.id
              rule_group := rule.group
              impact_score := rule.impact_score
              data := record }))

/-- The normalized input consumed by process_data. -/
structure InputData where
  records : List RecordData
  personal_info : RecordData
deriving DecidableEq

/-- The (record, rule) iteration order of process_data: records outermost
in input order, rules in declared order, each paired with the per-record
render context and record type. -/
def pairOutcomes (interp : List Char → RecordData → PyOutcome)
    (renderer : String → RecordData → Except String String)
    (rules : List Rule) (records : List RecordData) (personal : RecordData) :
    List (Except RuleExc (Option (String × Insight))) :=
  records.flatMap (fun record =>
    rules.map (fun rule =>
      evalRuleOnRecord interp renderer (buildRenderContext record personal) record
        (detectRecordType record) rule))

/-- One iteration step of the matching loop over an already computed pair
outcome: an exception is logged and skipped, a non-match contributes
nothing, and a match is appended unless its key was already seen. -/
def dedupFold (acc : List String × List Insight)
    (x : Except RuleExc (Option (String × Insight))) : List String × List Insight :=
  match x with
  | .error _ => acc
  | .ok Option.none => acc
  | .ok (some (key, ins)) =>
    if key ∈ acc.1 then acc
    else (key :: acc.1, acc.2 ++ [ins])

/-- The seen-set threading of process_data over a list of pair outcomes. -/
def processDataCore (outcomes : List (Except RuleExc (Option (String × Insight)))) :
    List Insight :=
  (outcomes.foldl dedupFold ([], [])).2

/-- RuleEngine.process_data. -/
def processData (interp : List Char → RecordData → PyOutcome)
    (renderer : String → RecordData → Except String String)
    (rules : List Rule) (data : InputData) : List Insight :=
  processDataCore (pairOutcomes interp renderer rules data.records data.personal_info)

/-- The matched (key, insight) pairs in production order, before
deduplication. -/
def matchedPairs (outcomes : List (Except RuleExc (Option (String × Insight)))) :
    List (String × Insight) :=
  outcomes.filterMap (fun x =>
    match x with
    | .ok (some ki) => some ki
    | _ => Option.none)

/-- Reference first-wins deduplication: keep the first pair carrying each
key, dropping keys already in the seen accumulator. -/
def dedupFirst (seen : List String) : List (String × Insight) → List (String × Insight)
  | [] => []
  | (k, i) :: rest =>
    if k ∈ seen then dedupFirst seen rest
    else (k, i) :: dedupFirst (k :: seen) rest

/-! ### generate_report -/

/-- Integer counts keyed by string, with dict get-or-zero increment. -/
def bumpCount (counts : List (String × Nat)) (k : String) : List (String × Nat) :=
  (k, (counts.lookup k).getD 0 + 1) :: counts

/-- The report produced by RuleEngine.generate_report. -/
structure Report where
  total_insights : Nat
  label_counts : List (String × Nat)
  severity_counts : List (String × Nat)
  group_counts : List (String × Nat)
  total_impact_score : Int
  risk_level : String
  insights : List Insight
deriving DecidableEq

/-- The zero-filled initial severity counts of generate_report. -/
def initialSeverityCounts : List (String × Nat) :=
  [("critical", 0), ("high", 0), ("medium", 0), ("low", 0), ("positive", 0)]

/-- The per-insight accumulation step of generate_report. -/
def reportFold (acc : List (String × Nat) × List (String × Nat) × List (String × Nat) × Int)
    (ins : Insight) : List (String × Nat) × List (String × Nat) × List (String × Nat) × Int :=
  (bumpCount acc.1 ins.label, bumpCount acc.2.1 ins.severity,
   bumpCount acc.2.2.1 ins.rule_group,
   if ins.severity ≠ "positive" then acc.2.2.2 + ins.impact_score else acc.2.2.2)

/-- The summed impact score over non-positive insights, as accumulated by
generate_report. -/
def totalImpact (insights : List Insight) : Int :=
  insights.foldl (fun t ins => if ins.severity ≠ "positive" then t + ins.impact_score else t) 0

/-- The threshold bands of generate_report. -/
def riskLevelOf (total_impact : Int) : String :=
  if total_impact ≥ 200 then "CRITICAL"
  else if total_impact ≥ 150 then "HIGH"
  else if total_impact ≥ 100 then "MODERATE"
  else if total_impact ≥ 50 then "LOW"
  else "MINIMAL"

/-- RuleEngine.generate_report. -/
def generateReport (insights : List Insight) : Report :=
  let r := insights.foldl reportFold ([], initialSeverityCounts, [], 0)
  { total_insights := insights.length
    label_counts := r.1
    severity_counts := r.2.1
    group_counts := r.2.2.1
    total_impact_score := r.2.2.2
    risk_level := riskLevelOf r.2.2.2
    insights := insights }

/-- The ordering of the five risk levels, MINIMAL lowest. -/
def riskRank : String → Nat
  | "LOW" => 1
  | "MODERATE" => 2
  | "HIGH" => 3
  | "CRITICAL" => 4
  | _ => 0

/-! ## Auxiliary definitions used by the claim statements -/

/-- The string content of a value, empty for non-strings. -/
def strOrEmpty : Value → String
  | .str s => s
  | _ => ""

/-- Modelled from the spec wording for comparison: the facility type is
the first non-empty string among the three alias keys facility_type,
loan_type, loantype, in that order of precedence. -/
def specFacilityType (record : RecordData) : String :=
  let s1 := strOrEmpty (getD record "facility_type" (Value.str ""))
  let s2 := strOrEmpty (getD record "loan_type" (Value.str ""))
  let s3 := strOrEmpty (getD record "loantype" (Value.str ""))
  if s1 ≠ "" then s1 else if s2 ≠ "" then s2 else s3

/-- Modelled from the spec wording for comparison: revolving detection is
membership of the resolved facility type in the fixed revolving set. -/
def specIsRevolving (record : RecordData) : Bool :=
  REVOLVING_FACILITIES.contains (specFacilityType record)

/-- Replace an exception outcome by a silent skip; the catch clause of
process_data makes the two indistinguishable. -/
def skipExceptions (x : Except RuleExc (Option (String × Insight))) :
    Except RuleExc (Option (String × Insight)) :=
  match x with
  | .error _ => .ok Option.none
  | y => y

/-- Whether a pair outcome contributes a matched insight. -/
def contributes (x : Except RuleExc (Option (String × Insight))) : Bool :=
  match x with
  | .ok (some _) => true
  | _ => false

/-- Whether a pair outcome is an exception. -/
def isErr (x : Except RuleExc (Option (String × Insight))) : Bool :=
  match x with
  | .error _ => true
  | _ => false

/-- The deduplication key of an insight, as composed in process_data. -/
def insightKey (i : Insight) : String :=
  i.label ++ ":" ++ i.type ++ ":" ++ i.message

/-- The value-level effect of the float coercion pass on a present
binding. -/
def floatCoerceVal (v : Value) : Value :=
  if v = Value.none then v
  else
    match pyFloat v with
    | some q => .float q
    | Option.none => .float 0

/-- The value-level effect of the integer coercion pass on a present
binding. -/
def intCoerceVal (v : Value) : Value :=
  if v = Value.none then v
  else
    match pyFloat v with
    | some q => .int (ratTrunc q)
    | Option.none => .int 0

/-- The value-level effect of the boolean coercion pass on a present
binding. -/
def boolCoerceVal (v : Value) : Value :=
  if v = Value.none then v else .bool (pyTruthy v)

/-- The composite effect of the three coercion passes of _prepare_data on
the binding of one key. -/
def coerceChain (k : String) (ov : Option Value) : Option Value :=
  let a := if k ∈ numeric_fields then ov.map floatCoerceVal else ov
  let b := if k ∈ integer_fields then a.map intCoerceVal else a
  if k ∈ boolean_fields then b.map boolCoerceVal else b

/-! ## Claim C5: record-type classification -/

/-- C5: _detect_record_type returns aggregate exactly when the record
contains at least one of the six aggregate indicator keys, regardless of
any other keys present, and returns loan exactly when it contains none of
them — in particular also for records lacking facility_type and
loantype. -/
theorem detect_record_type_characterization (record : RecordData) :
    (detectRecordType record = "aggregate" ↔
       ∃ k ∈ aggregate_indicators, hasKey record k = true)
    ∧ (detectRecordType record = "loan" ↔
       ∀ k ∈ aggregate_indicators, hasKey record k = false) := by
  by_cases h : aggregate_indicators.any (fun k => hasKey record k) = true
  · have hd : detectRecordType record = "aggregate" := by
      unfold detectRecordType
      rw [if_pos h]
    rcases List.any_eq_true.1 h with ⟨k, hk, hkk⟩
    refine ⟨⟨fun _ => ⟨k, hk, hkk⟩, fun _ => hd⟩, ?_, ?_⟩
    · intro hc
      rw [hd] at hc
      exact absurd hc (by decide)
    · intro hall
      exact absurd hkk (by simp [hall k hk])
  · have hd : detectRecordType record = "loan" := by
      unfold detectRecordType
      rw [if_neg h]
      exact ite_self "loan"
    have hall : ∀ k ∈ aggregate_indicators, hasKey record k = false := by
      intro k hk
      cases hkk : hasKey record k
      · rfl
      · exact absurd (List.any_eq_true.2 ⟨k, hk, hkk⟩) h
    refine ⟨⟨fun hc => ?_, fun hex => ?_⟩, fun _ => hall, fun _ => hd⟩
    · rw [hd] at hc
      exact absurd hc (by decide)
    · rcases hex with ⟨k, hk, hkk⟩
      exact absurd hkk (by simp [hall k hk])

/-! ## Claim C1: utilization-group routing -/

/-- C1: for a rule in group utilization, _should_apply_rule holds exactly
when the record classifies as a loan record and _is_revolving_credit holds
for it; consequently such a rule never applies to an installment-facility
loan record, nor to an aggregate record. -/
theorem utilization_rule_routing (rule : Rule) (record : RecordData)
    (h : rule.group = "utilization") :
    (shouldApplyRule rule record = true ↔
       detectRecordType record = "loan" ∧ isRevolvingCredit record = true)
    ∧ (∀ s ∈ INSTALLMENT_FACILITIES, facilityTypeOf record = Value.str s →
         shouldApplyRule rule record = false)
    ∧ (detectRecordType record = "aggregate" → shouldApplyRule rule record = false) := by
  have hs : shouldApplyRule rule record =
      ((detectRecordType record == "loan") && isRevolvingCredit record) := by
    unfold shouldApplyRule
    rw [h]
    simp
  refine ⟨?_, ?_, ?_⟩
  · rw [hs]
    simp [Bool.and_eq_true, beq_iff_eq]
  · intro s hmem hft
    have hrev : isRevolvingCredit record = false := by
      unfold isRevolvingCredit
      rw [hft]
      fin_cases hmem <;> decide
    rw [hs, hrev, Bool.and_false]
  · intro hagg
    have hb : (("aggregate" : String) == "loan") = false := by decide
    rw [hs, hagg, hb, Bool.false_and]

/-- Concrete instance of the utilization routing: a credit-card loan
record receives the rule, an aggregate record does not. -/
theorem utilization_rule_routing_witness :
    shouldApplyRule
      { id := "UTIL-1", label := "High Utilization", group := "utilization",
        condition := "creditutilizationratio > 80".data, template := "",
        recommendation := "", priority := "high", data_source := "",
        compound_type := "", impact_score := 15 }
      [("facility_type", Value.str "CRDTCARD")] = true ∧
    shouldApplyRule
      { id := "UTIL-1", label := "High Utilization", group := "utilization",
        condition := "creditutilizationratio > 80".data, template := "",
        recommendation := "", priority := "high", data_source := "",
        compound_type := "", impact_score := 15 }
      [("numberofloans", Value.int 2)] = false :=
  ⟨(utilization_rule_routing _ _ rfl).1.mpr ⟨by decide, by decide⟩,
   (utilization_rule_routing _ _ rfl).2.2 (by decide)⟩

/-! ## Claim C6: revolving-credit detection -/

/-- Boolean string equality agrees with decidable propositional equality. -/
theorem string_beq_eq_decide (s t : String) : (s == t) = decide (s = t) := by
  by_cases h : s = t <;> simp [h]

/-- C6: on records whose three facility alias keys hold string values,
_is_revolving_credit agrees with the spec reading: true exactly when the
first non-empty of facility_type, loan_type, loantype belongs to
the set containing CRDTCARD and OVRDRAFT. -/
theorem is_revolving_matches_spec (record : RecordData)
    (h : ∀ k ∈ ["facility_type", "loan_type", "loantype"],
      ∃ s, getD record k (Value.str "") = Value.str s) :
    isRevolvingCredit record = specIsRevolving record := by
  obtain ⟨s1, h1⟩ := h "facility_type" (by simp)
  obtain ⟨s2, h2⟩ := h "loan_type" (by simp)
  obtain ⟨s3, h3⟩ := h "loantype" (by simp)
  unfold isRevolvingCredit specIsRevolving specFacilityType facilityTypeOf
  rw [h1, h2, h3]
  by_cases e1 : s1 = ""
  · by_cases e2 : s2 = ""
    · subst e1; subst e2
      simp [pyTruthy, strOrEmpty, REVOLVING_FACILITIES, pyEq, List.contains,
        string_beq_eq_decide]
    · subst e1
      simp [pyTruthy, strOrEmpty, e2, REVOLVING_FACILITIES, pyEq, List.contains,
        string_beq_eq_decide]
  · simp [pyTruthy, strOrEmpty, e1, REVOLVING_FACILITIES, pyEq, List.contains,
      string_beq_eq_decide]

/-- Concrete instance of C6: the loan_type alias takes over when
facility_type is empty, and the overdraft code counts as revolving. -/
theorem is_revolving_matches_spec_witness :
    isRevolvingCredit
        [("facility_type", Value.str ""), ("loan_type", Value.str "OVRDRAFT")] =
      specIsRevolving
        [("facility_type", Value.str ""), ("loan_type", Value.str "OVRDRAFT")] :=
  is_revolving_matches_spec _ (by
    intro k hk
    fin_cases hk
    · exact ⟨"", rfl⟩
    · exact ⟨"OVRDRAFT", rfl⟩
    · exact ⟨"", rfl⟩)

/-! ## Claim C8: risk-level thresholds and monotonicity -/

/-- The impact accumulator of generate_report only depends on the running
total. -/
theorem reportFold_impact (l : List Insight) (a b : List (String × Nat))
    (c : List (String × Nat)) (t : Int) :
    (l.foldl reportFold (a, b, c, t)).2.2.2 =
      l.foldl (fun u ins => if ins.severity ≠ "positive" then u + ins.impact_score else u) t := by
  induction l generalizing a b c t with
  | nil => rfl
  | cons ins rest ih => simpa [reportFold] using ih _ _ _ _

/-- The impact fold equals the sum over the non-positive insights. -/
theorem impact_fold_eq_sum (l : List Insight) (t : Int) :
    l.foldl (fun u ins => if ins.severity ≠ "positive" then u + ins.impact_score else u) t =
      t + ((l.filter (fun i => i.severity != "positive")).map
            (fun i => i.impact_score)).sum := by
  induction l generalizing t with
  | nil => simp
  | cons ins rest ih =>
    rw [List.foldl_cons, List.filter_cons]
    by_cases h : ins.severity = "positive"
    · have hb : ¬((ins.severity != "positive") = true) := by simp [h]
      rw [if_neg (not_not_intro h), if_neg hb, ih]
    · have hb : (ins.severity != "positive") = true := by simp [h]
      rw [if_pos h, if_pos hb, ih]
      simp
      omega

/-- riskRank composed with riskLevelOf, as a numeric band function. -/
theorem riskRank_riskLevelOf (t : Int) :
    riskRank (riskLevelOf t) =
      if t ≥ 200 then 4 else if t ≥ 150 then 3 else if t ≥ 100 then 2
      else if t ≥ 50 then 1 else 0 := by
  unfold riskLevelOf
  split_ifs <;> rfl

/-- C8: generate_report derives the risk level from the impact score summed
over the non-positive insights, the threshold bands are inclusive at their
lower bounds (exactly 200 is CRITICAL), and a larger summed impact never
yields a strictly lower risk level. -/
theorem risk_level_thresholds_monotone :
    (∀ insights, (generateReport insights).risk_level = riskLevelOf (totalImpact insights)
       ∧ (generateReport insights).total_impact_score = totalImpact insights
       ∧ totalImpact insights =
           ((insights.filter (fun i => i.severity != "positive")).map
             (fun i => i.impact_score)).sum)
    ∧ (∀ t : Int,
        (riskLevelOf t = "CRITICAL" ↔ t ≥ 200)
        ∧ (riskLevelOf t = "HIGH" ↔ 150 ≤ t ∧ t < 200)
        ∧ (riskLevelOf t = "MODERATE" ↔ 100 ≤ t ∧ t < 150)
        ∧ (riskLevelOf t = "LOW" ↔ 50 ≤ t ∧ t < 100)
        ∧ (riskLevelOf t = "MINIMAL" ↔ t < 50))
    ∧ (∀ xs ys : List Insight, totalImpact xs ≤ totalImpact ys →
        riskRank (generateReport xs).risk_level ≤ riskRank (generateReport ys).risk_level) := by
  have himp : ∀ l : List Insight,
      (l.foldl reportFold ([], initialSeverityCounts, [], 0)).2.2.2 = totalImpact l := by
    intro l
    rw [reportFold_impact]
    rfl
  have hrl : ∀ l : List Insight,
      (generateReport l).risk_level = riskLevelOf (totalImpact l) := by
    intro l
    show riskLevelOf (l.foldl reportFold ([], initialSeverityCounts, [], 0)).2.2.2 =
      riskLevelOf (totalImpact l)
    rw [himp]
  refine ⟨fun l => ⟨hrl l, himp l, ?_⟩, fun t => ?_, fun xs ys hle => ?_⟩
  · show l.foldl _ 0 = _
    rw [impact_fold_eq_sum]
    simp
  · unfold riskLevelOf
    refine ⟨?_, ?_, ?_, ?_, ?_⟩ <;>
      (split_ifs <;>
        (constructor <;> intro hx <;>
          first
            | rfl
            | omega
            | (exact absurd hx (by decide))))
  · rw [hrl xs, hrl ys, riskRank_riskLevelOf, riskRank_riskLevelOf]
    split_ifs <;> omega

/-- Concrete instance of C8 monotonicity: adding a critical insight with
impact 200 cannot lower the risk level below that of the empty set. -/
theorem risk_level_thresholds_monotone_witness :
    riskRank (generateReport []).risk_level ≤
      riskRank (generateReport
        [{ label := "Legal", type := "", message := "m", recommendation := "",
           severity := "critical", priority := "critical", data_source := "",
           record_type := "aggregate", rule_id := "R1", rule_group := "legal_financial",
           impact_score := 200, data := [] }]).risk_level :=
  risk_level_thresholds_monotone.2.2 _ _ (by decide)

/-! ## Claim C4: deduplication is first-wins on the composed key -/

/-- Threading the seen set through the matching loop computes first-wins
deduplication of the matched pairs. -/
theorem foldl_dedupFold_eq (outcomes : List (Except RuleExc (Option (String × Insight))))
    (seen : List String) (acc : List Insight) :
    (outcomes.foldl dedupFold (seen, acc)).2 =
      acc ++ (dedupFirst seen (matchedPairs outcomes)).map Prod.snd := by
  induction outcomes generalizing seen acc with
  | nil => simp [matchedPairs, dedupFirst]
  | cons x rest ih =>
    cases x with
    | error e => simpa [matchedPairs, dedupFold] using ih seen acc
    | ok o =>
      cases o with
      | none => simpa [matchedPairs, dedupFold] using ih seen acc
      | some ki =>
        obtain ⟨k, i⟩ := ki
        by_cases hk : k ∈ seen
        · simpa [matchedPairs, dedupFold, dedupFirst, hk] using ih seen acc
        · simpa [matchedPairs, dedupFold, dedupFirst, hk] using ih (k :: seen) (acc ++ [i])

/-- The pairs kept by first-wins deduplication avoid the seen keys and
carry pairwise distinct keys. -/
theorem dedupFirst_keys (l : List (String × Insight)) (seen : List String) :
    (∀ p ∈ dedupFirst seen l, p.1 ∉ seen) ∧
      (dedupFirst seen l).Pairwise (fun p q => p.1 ≠ q.1) := by
  induction l generalizing seen with
  | nil => simp [dedupFirst]
  | cons x rest ih =>
    obtain ⟨k, i⟩ := x
    by_cases hk : k ∈ seen
    · simpa [dedupFirst, hk] using ih seen
    · simp only [dedupFirst, if_neg hk]
      obtain ⟨h1, h2⟩ := ih (k :: seen)
      refine ⟨?_, ?_⟩
      · intro p hp
        rcases List.mem_cons.1 hp with rfl | hp2
        · exact hk
        · intro hmem
          exact h1 p hp2 (List.mem_cons_of_mem _ hmem)
      · refine List.Pairwise.cons ?_ h2
        intro q hq hEq
        exact h1 q hq (by rw [← hEq]; exact List.mem_cons_self _ _)

/-- Deduplication only keeps pairs of the input list. -/
theorem dedupFirst_subset (l : List (String × Insight)) (seen : List String) :
    ∀ p ∈ dedupFirst seen l, p ∈ l := by
  induction l generalizing seen with
  | nil => simp [dedupFirst]
  | cons x rest ih =>
    obtain ⟨k, i⟩ := x
    by_cases hk : k ∈ seen
    · simp only [dedupFirst, if_pos hk]
      intro p hp
      exact List.mem_cons_of_mem _ (ih seen p hp)
    · simp only [dedupFirst, if_neg hk]
      intro p hp
      rcases List.mem_cons.1 hp with rfl | hp2
      · exact List.mem_cons_self _ _
      · exact List.mem_cons_of_mem _ (ih (k :: seen) p hp2)

/-- A matched pair produced by one rule-loop iteration composes its key
from the label, compound type and rendered message of its insight. -/
theorem evalRuleOnRecord_key (interp : List Char → RecordData → PyOutcome)
    (renderer : String → RecordData → Except String String)
    (ctx record : RecordData) (rt : String) (rule : Rule) (k : String) (i : Insight)
    (h : evalRuleOnRecord interp renderer ctx record rt rule = .ok (some (k, i))) :
    k = insightKey i := by
  unfold evalRuleOnRecord at h
  split at h
  · exact absurd h (by simp)
  · split at h
    · exact absurd h (by simp)
    · split at h
      · exact absurd h (by simp)
      · exact absurd h (by simp)
      · dsimp only at h
        split at h
        · exact absurd h (by simp)
        · split at h
          · exact absurd h (by simp)
          · simp only [Except.ok.injEq, Option.some.injEq, Prod.mk.injEq] at h
            obtain ⟨hk, hi⟩ := h
            rw [← hk, ← hi]
            rfl

/-- Every matched pair of the process_data iteration satisfies the key
composition. -/
theorem matchedPairs_key (interp : List Char → RecordData → PyOutcome)
    (renderer : String → RecordData → Except String String)
    (rules : List Rule) (records : List RecordData) (personal : RecordData) :
    ∀ p ∈ matchedPairs (pairOutcomes interp renderer rules records personal),
      p.1 = insightKey p.2 := by
  intro p hp
  obtain ⟨x, hx, hfx⟩ := List.mem_filterMap.1 hp
  obtain ⟨record, _, hx2⟩ := List.mem_flatMap.1 hx
  obtain ⟨rule, _, hx3⟩ := List.mem_map.1 hx2
  obtain ⟨k, i⟩ := p
  have hxk : x = .ok (some (k, i)) := by
    cases x with
    | error e => exact absurd hfx (by simp)
    | ok o =>
      cases o with
      | none => exact absurd hfx (by simp)
      | some ki => simp at hfx; rw [hfx]
  rw [hxk] at hx3
  exact evalRuleOnRecord_key _ _ _ _ _ _ _ _ hx3

/-- C4: process_data returns exactly the first-wins deduplication of the
matched (rule, record) pairs in iteration order (records in input order,
rules in declared order), so the result carries at most one insight per
(label, compound_type, rendered message) key and the first-produced
insight is the one kept; a duplicated (rule, record) pair therefore
contributes at most one insight with its key. -/
theorem process_data_dedup_first_wins (interp : List Char → RecordData → PyOutcome)
    (renderer : String → RecordData → Except String String)
    (rules : List Rule) (data : InputData) :
    processData interp renderer rules data =
      (dedupFirst [] (matchedPairs
        (pairOutcomes interp renderer rules data.records data.personal_info))).map Prod.snd
    ∧ (processData interp renderer rules data).Pairwise
        (fun i j => ¬(i.label = j.label ∧ i.type = j.type ∧ i.message = j.message)) := by
  have h1 : processData interp renderer rules data =
      (dedupFirst [] (matchedPairs
        (pairOutcomes interp renderer rules data.records data.personal_info))).map Prod.snd := by
    unfold processData processDataCore
    simpa using foldl_dedupFold_eq _ [] []
  refine ⟨h1, ?_⟩
  rw [h1]
  rw [List.pairwise_map]
  have hpw := (dedupFirst_keys (matchedPairs
    (pairOutcomes interp renderer rules data.records data.personal_info)) []).2
  refine List.Pairwise.imp_of_mem ?_ hpw
  intro p q hp hq hne hcon
  obtain ⟨hl, ht, hm⟩ := hcon
  have hkp : p.1 = insightKey p.2 :=
    matchedPairs_key _ _ _ _ _ p (dedupFirst_subset _ _ p hp)
  have hkq : q.1 = insightKey q.2 :=
    matchedPairs_key _ _ _ _ _ q (dedupFirst_subset _ _ q hq)
  apply hne
  rw [hkp, hkq]
  unfold insightKey
  rw [hl, ht, hm]

/-! ## Claim C3: exception isolation in process_data -/

/-- Exception outcomes act on the matching fold exactly like silent
skips. -/
theorem foldl_dedupFold_skipExceptions
    (outcomes : List (Except RuleExc (Option (String × Insight))))
    (acc : List String × List Insight) :
    (outcomes.map skipExceptions).foldl dedupFold acc = outcomes.foldl dedupFold acc := by
  induction outcomes generalizing acc with
  | nil => rfl
  | cons x rest ih =>
    rw [List.map_cons, List.foldl_cons, List.foldl_cons]
    have hx : dedupFold acc (skipExceptions x) = dedupFold acc x := by
      cases x with
      | error e => rfl
      | ok o => rfl
    rw [hx, ih]

/-- Dropping the non-contributing outcomes leaves the fold unchanged. -/
theorem foldl_dedupFold_filter
    (outcomes : List (Except RuleExc (Option (String × Insight))))
    (acc : List String × List Insight) :
    (outcomes.filter contributes).foldl dedupFold acc = outcomes.foldl dedupFold acc := by
  induction outcomes generalizing acc with
  | nil => rfl
  | cons x rest ih =>
    by_cases hc : contributes x = true
    · rw [List.filter_cons, if_pos hc, List.foldl_cons, List.foldl_cons, ih]
    · have hskip : dedupFold acc x = acc := by
        cases x with
        | error e => rfl
        | ok o =>
          cases o with
          | none => rfl
          | some ki => simp [contributes] at hc
      rw [List.filter_cons, if_neg hc, List.foldl_cons, hskip, ih]

/-- Removing a rule from the middle of the rule list does not change the
contributing outcomes when that rule contributes on no record. -/
theorem pairOutcomes_filter_middle (interp : List Char → RecordData → PyOutcome)
    (renderer : String → RecordData → Except String String)
    (rules1 rules2 : List Rule) (r : Rule) (records : List RecordData)
    (personal : RecordData)
    (h : ∀ record ∈ records,
      contributes (evalRuleOnRecord interp renderer (buildRenderContext record personal)
        record (detectRecordType record) r) = false) :
    (pairOutcomes interp renderer (rules1 ++ r :: rules2) records personal).filter
        contributes =
      (pairOutcomes interp renderer (rules1 ++ rules2) records personal).filter
        contributes := by
  induction records with
  | nil => rfl
  | cons record rest ih =>
    have hrec := h record (List.mem_cons_self _ _)
    simp only [pairOutcomes, List.flatMap_cons, List.filter_append] at ih ⊢
    congr 1
    · rw [List.map_append, List.map_append, List.map_cons, List.filter_append,
        List.filter_append, List.filter_cons, if_neg (by simp [hrec])]
    · exact ih (fun rec2 hrec2 => h rec2 (List.mem_cons_of_mem _ hrec2))

/-- A rule that contributes on no record of the input can be removed from
the rule list without changing the produced insights. -/
theorem processData_removes_noncontributing (interp : List Char → RecordData → PyOutcome)
    (renderer : String → RecordData → Except String String)
    (rules1 rules2 : List Rule) (r : Rule) (data : InputData)
    (h : ∀ record ∈ data.records,
      contributes (evalRuleOnRecord interp renderer
        (buildRenderContext record data.personal_info) record (detectRecordType record) r)
        = false) :
    processData interp renderer (rules1 ++ r :: rules2) data =
      processData interp renderer (rules1 ++ rules2) data := by
  unfold processData processDataCore
  rw [← foldl_dedupFold_filter
        (pairOutcomes interp renderer (rules1 ++ r :: rules2) data.records
          data.personal_info),
      ← foldl_dedupFold_filter
        (pairOutcomes interp renderer (rules1 ++ rules2) data.records data.personal_info),
      pairOutcomes_filter_middle interp renderer rules1 rules2 r data.records
        data.personal_info h]

/-- C3: every exception raised while evaluating or rendering one
(rule, record) pair is caught inside that iteration of process_data: the
run is equivalent to one in which the failing pair silently skips, all
other pairs contributing exactly as before; in particular a rule that
fails on every record can be deleted without changing the returned
insights. -/
theorem process_data_exception_isolation (interp : List Char → RecordData → PyOutcome)
    (renderer : String → RecordData → Except String String)
    (rules : List Rule) (data : InputData) :
    (processData interp renderer rules data =
       processDataCore ((pairOutcomes interp renderer rules data.records
         data.personal_info).map skipExceptions))
    ∧ (∀ (rules1 rules2 : List Rule) (r : Rule),
        (∀ record ∈ data.records,
          isErr (evalRuleOnRecord interp renderer
            (buildRenderContext record data.personal_info) record
            (detectRecordType record) r) = true) →
        processData interp renderer (rules1 ++ r :: rules2) data =
          processData interp renderer (rules1 ++ rules2) data) := by
  constructor
  · unfold processData processDataCore
    rw [foldl_dedupFold_skipExceptions]
  · intro rules1 rules2 r h
    apply processData_removes_noncontributing
    intro record hrec
    have herr := h record hrec
    revert herr
    cases evalRuleOnRecord interp renderer (buildRenderContext record data.personal_info)
        record (detectRecordType record) r with
    | error e => intro; rfl
    | ok o =>
      intro hbad
      cases o <;> simp [isErr] at hbad

/-- Concrete instance of C3: one rule with an invalid condition raises a
ParserError on every record and contributes nothing: the batch result
equals the result without that rule. -/
theorem process_data_exception_isolation_witness :
    processData
      (fun norm _ =>
        if norm = "x >".data then PyOutcome.raised (PyExc.syntaxError "invalid syntax")
        else PyOutcome.val (Value.bool true))
      (fun _ _ => .ok "")
      [{ id := "GOOD", label := "Good", group := "payment_conduct",
         condition := "x > 1".data, template := "", recommendation := "",
         priority := "high", data_source := "", compound_type := "", impact_score := 5 },
       { id := "BAD", label := "Bad", group := "payment_conduct",
         condition := "x >".data, template := "", recommendation := "",
         priority := "high", data_source := "", compound_type := "", impact_score := 5 }]
      { records := [[("facility_type", Value.str "CRDTCARD")]], personal_info := [] } =
    processData
      (fun norm _ =>
        if norm = "x >".data then PyOutcome.raised (PyExc.syntaxError "invalid syntax")
        else PyOutcome.val (Value.bool true))
      (fun _ _ => .ok "")
      [{ id := "GOOD", label := "Good", group := "payment_conduct",
         condition := "x > 1".data, template := "", recommendation := "",
         priority := "high", data_source := "", compound_type := "", impact_score := 5 }]
      { records := [[("facility_type", Value.str "CRDTCARD")]], personal_info := [] } :=
  (process_data_exception_isolation _ _ [] _).2
    [{ id := "GOOD", label := "Good", group := "payment_conduct",
       condition := "x > 1".data, template := "", recommendation := "",
       priority := "high", data_source := "", compound_type := "", impact_score := 5 }]
    []
    { id := "BAD", label := "Bad", group := "payment_conduct",
      condition := "x >".data, template := "", recommendation := "",
      priority := "high", data_source := "", compound_type := "", impact_score := 5 }
    (by decide)

/-! ## Claim C10: empty and whitespace-only conditions -/

/-- Characters of a bootstrapped prefix occur in the longer list. -/
theorem mem_of_isPrefixOf {l1 l2 : List Char} (h : l1.isPrefixOf l2 = true) :
    ∀ c ∈ l1, c ∈ l2 := by
  induction l1 generalizing l2 with
  | nil => simp
  | cons a as ih =>
    cases l2 with
    | nil => simp [List.isPrefixOf] at h
    | cons b bs =>
      simp only [List.isPrefixOf, Bool.and_eq_true, beq_iff_eq] at h
      obtain ⟨rfl, h2⟩ := h
      intro c hc
      rcases List.mem_cons.1 hc with rfl | hc2
      · exact List.mem_cons_self _ _
      · exact List.mem_cons_of_mem _ (ih h2 c hc2)

/-- str.replace leaves a whitespace-only string unchanged when the pattern
contains a non-whitespace character. -/
theorem listReplaceAux_ws (fuel : Nat) (s old new : List Char)
    (hs : ∀ c ∈ s, c.isWhitespace = true)
    (hold : ∃ c ∈ old, c.isWhitespace = false) :
    listReplaceAux fuel s old new = s := by
  induction fuel generalizing s with
  | zero => rfl
  | succ fuel ih =>
    cases s with
    | nil => rfl
    | cons c rest =>
      have hnp : ¬(old ≠ [] ∧ old.isPrefixOf (c :: rest) = true) := by
        rintro ⟨-, hpre⟩
        obtain ⟨d, hd, hdw⟩ := hold
        have := hs d (mem_of_isPrefixOf hpre d hd)
        rw [this] at hdw
        exact absurd hdw (by decide)
      rw [listReplaceAux, if_neg hnp, ih rest (fun c2 hc2 => hs c2 (List.mem_cons_of_mem _ hc2))]

/-- The boolean-literal replacement pass of _normalize_condition leaves a
whitespace-only condition unchanged. -/
theorem replacements_ws (ps : List (List Char × List Char)) (s : List Char)
    (hs : ∀ c ∈ s, c.isWhitespace = true)
    (hps : ∀ p ∈ ps, ∃ c ∈ p.1, c.isWhitespace = false) :
    ps.foldl (fun acc p => listReplace acc p.1 p.2) s = s := by
  induction ps with
  | nil => rfl
  | cons p rest ih =>
    rw [List.foldl_cons]
    have hstep : listReplace s p.1 p.2 = s :=
      listReplaceAux_ws _ _ _ _ hs (hps p (List.mem_cons_self _ _))
    rw [hstep]
    exact ih (fun q hq => hps q (List.mem_cons_of_mem _ hq))

/-- str.split() of a whitespace-only string yields no pieces. -/
theorem splitWsAux_ws (fuel : Nat) (s : List Char)
    (hs : ∀ c ∈ s, c.isWhitespace = true) :
    splitWsAux fuel s = [] := by
  induction fuel generalizing s with
  | zero => rfl
  | succ fuel ih =>
    cases s with
    | nil => rfl
    | cons c rest =>
      rw [splitWsAux, if_pos (hs c (List.mem_cons_self _ _))]
      exact ih rest (fun c2 hc2 => hs c2 (List.mem_cons_of_mem _ hc2))

/-- _normalize_condition maps every whitespace-only condition to the empty
string. -/
theorem normalizeCondition_ws (condition : List Char)
    (hs : ∀ c ∈ condition, c.isWhitespace = true) :
    normalizeCondition condition = [] := by
  unfold normalizeCondition
  by_cases hc : condition = []
  · rw [if_pos hc]
  · rw [if_neg hc]
    have hps : ∀ p ∈ REPLACEMENTS, ∃ c ∈ p.1, c.isWhitespace = false := by decide
    rw [replacements_ws REPLACEMENTS condition hs hps]
    unfold splitWs
    dsimp only
    rw [splitWsAux_ws _ _ hs]
    rfl

/-- C10: evaluate returns False, raising nothing, on every empty or
whitespace-only condition, whatever the interpreter would do; and in
process_data a rule whose condition field is empty or missing is skipped
before any evaluation, so it contributes no insight and can be removed
without changing the returned insights. -/
theorem empty_condition_behavior :
    (∀ (condition : List Char) (aeval : List Char → PyOutcome),
       (∀ c ∈ condition, c.isWhitespace = true) →
       evaluateStr condition aeval = .ret false)
    ∧ (∀ (interp : List Char → RecordData → PyOutcome)
         (renderer : String → RecordData → Except String String)
         (ctx record : RecordData) (rt : String) (rule : Rule),
        rule.condition = [] →
        evalRuleOnRecord interp renderer ctx record rt rule = .ok Option.none)
    ∧ (∀ (interp : List Char → RecordData → PyOutcome)
         (renderer : String → RecordData → Except String String)
         (rules1 rules2 : List Rule) (r : Rule) (data : InputData),
        r.condition = [] →
        processData interp renderer (rules1 ++ r :: rules2) data =
          processData interp renderer (rules1 ++ rules2) data) := by
  have hnone : ∀ (interp : List Char → RecordData → PyOutcome)
      (renderer : String → RecordData → Except String String)
      (ctx record : RecordData) (rt : String) (rule : Rule),
      rule.condition = [] →
      evalRuleOnRecord interp renderer ctx record rt rule = .ok Option.none := by
    intro interp renderer ctx record rt rule hcond
    unfold evalRuleOnRecord
    by_cases happ : (!shouldApplyRule rule record) = true
    · rw [if_pos happ]
    · rw [if_neg happ, if_pos hcond]
  refine ⟨?_, hnone, ?_⟩
  · intro condition aeval hws
    unfold evaluateStr
    rw [normalizeCondition_ws condition hws]
    rfl
  · intro interp renderer rules1 rules2 r data hcond
    apply processData_removes_noncontributing
    intro record hrec
    rw [hnone interp renderer (buildRenderContext record data.personal_info) record
      (detectRecordType record) r hcond]
    rfl

/-- Concrete instance of C10: a three-space condition evaluates to False
even under an interpreter that would raise, and an empty-condition rule
yields no outcome on a loan record. -/
theorem empty_condition_behavior_witness :
    evaluateStr "   ".data (fun _ => PyOutcome.raised (PyExc.syntaxError "boom")) =
      .ret false ∧
    evalRuleOnRecord (fun _ _ => PyOutcome.val (Value.bool true)) (fun _ _ => .ok "")
      [] [("facility_type", Value.str "CRDTCARD")] "loan"
      { id := "E1", label := "Empty", group := "payment_conduct", condition := [],
        template := "", recommendation := "", priority := "low", data_source := "",
        compound_type := "", impact_score := 0 } = .ok Option.none :=
  ⟨empty_condition_behavior.1 _ _ (by decide),
   empty_condition_behavior.2.1 _ _ _ _ _ _ rfl⟩

/-! ## Lookup lemmas for the prepared-data table -/

/-- Lookup after a dict assignment: the assigned key reads the new value,
every other key is unchanged. -/
theorem lookup_dictSet (r : RecordData) (k k2 : String) (v : Value) :
    (dictSet r k2 v).lookup k = if k = k2 then some v else r.lookup k := by
  by_cases h : k = k2
  · subst h
    simp [dictSet, List.lookup]
  · simp [dictSet, List.lookup, string_beq_eq_decide, h]

/-- A key present among the keys of an association list has a binding. -/
theorem lookup_isSome_of_mem_keys (l : List (String × Value)) (k : String)
    (h : k ∈ l.map Prod.fst) : (l.lookup k).isSome := by
  induction l with
  | nil => simp at h
  | cons p rest ih =>
    obtain ⟨k1, v1⟩ := p
    by_cases he : k = k1
    · subst he
      simp [List.lookup]
    · have h2 : k ∈ rest.map Prod.fst := by
        rcases (by simpa using h : k = k1 ∨ ∃ x, (k, x) ∈ rest) with he2 | ⟨x, hx⟩
        · exact absurd he2 he
        · exact List.mem_map.2 ⟨(k, x), hx, rfl⟩
      simpa [List.lookup, string_beq_eq_decide, he] using ih h2

/-- A key absent from the keys of an association list has no binding. -/
theorem lookup_eq_none_of_not_mem_keys (l : List (String × Value)) (k : String)
    (h : k ∉ l.map Prod.fst) : l.lookup k = Option.none := by
  induction l with
  | nil => rfl
  | cons p rest ih =>
    obtain ⟨k1, v1⟩ := p
    have he : k ≠ k1 := by
      intro hc
      exact h (by simp [hc])
    have h2 : k ∉ rest.map Prod.fst := by
      intro hc
      exact h (by simp [hc])
    simpa [List.lookup, string_beq_eq_decide, he] using ih h2

/-- The override loop of _prepare_data does not touch keys absent from the
supplied data. -/
theorem foldl_override_absent (data : RecordData) (acc : RecordData) (k : String)
    (h : data.lookup k = Option.none) :
    (data.foldl (fun acc kv => if kv.2 = Value.none then acc else dictSet acc kv.1 kv.2)
      acc).lookup k = acc.lookup k := by
  induction data generalizing acc with
  | nil => rfl
  | cons p rest ih =>
    obtain ⟨k1, v1⟩ := p
    have hne : k ≠ k1 := by
      intro hc
      subst hc
      simp [List.lookup] at h
    have htail : rest.lookup k = Option.none := by
      simpa [List.lookup, string_beq_eq_decide, hne] using h
    rw [List.foldl_cons, ih _ htail]
    by_cases hv : v1 = Value.none
    · rw [if_pos hv]
    · rw [if_neg hv, lookup_dictSet, if_neg hne]

/-- A key absent from the supplied data keeps its default binding through
the override loop. -/
theorem overrideDefaults_lookup_absent (data : RecordData) (k : String)
    (h : data.lookup k = Option.none) :
    (overrideDefaults data).lookup k = DEFAULT_VALUES.lookup k :=
  foldl_override_absent data DEFAULT_VALUES k h

/-- The override loop keeps every key that has a binding. -/
theorem overrideDefaults_isSome (data : RecordData) (acc : RecordData) (k : String)
    (h : (acc.lookup k).isSome) :
    ((data.foldl (fun acc kv => if kv.2 = Value.none then acc else dictSet acc kv.1 kv.2)
      acc).lookup k).isSome := by
  induction data generalizing acc with
  | nil => exact h
  | cons p rest ih =>
    obtain ⟨k1, v1⟩ := p
    rw [List.foldl_cons]
    apply ih
    by_cases hv : v1 = Value.none
    · rwa [if_pos hv]
    · rw [if_neg hv, lookup_dictSet]
      by_cases he : k = k1
      · rw [if_pos he]
        rfl
      · rwa [if_neg he]

/-- A non-None binding of data with distinct keys, as a Python dict has,
survives the override loop whatever the starting table. -/
theorem foldl_override_present (data : RecordData) (acc : RecordData) (k : String)
    (v : Value) (hnd : (data.map Prod.fst).Nodup) (h : data.lookup k = some v)
    (hv : v ≠ Value.none) :
    (data.foldl (fun acc kv => if kv.2 = Value.none then acc else dictSet acc kv.1 kv.2)
      acc).lookup k = some v := by
  induction data generalizing acc with
  | nil => simp [List.lookup] at h
  | cons p rest ih =>
    obtain ⟨k1, v1⟩ := p
    by_cases he : k = k1
    · subst he
      have hv1 : v1 = v := by
        simpa [List.lookup] using h
      subst hv1
      have habs : rest.lookup k = Option.none := by
        apply lookup_eq_none_of_not_mem_keys
        intro hc
        exact (List.nodup_cons.1 (by simpa using hnd)).1 hc
      rw [List.foldl_cons, foldl_override_absent _ _ _ habs, if_neg hv, lookup_dictSet,
        if_pos rfl]
    · have htail : rest.lookup k = some v := by
        simpa [List.lookup, string_beq_eq_decide, he] using h
      rw [List.foldl_cons]
      exact ih _ (List.nodup_cons.1 (by simpa using hnd)).2 htail

/-- The override loop of _prepare_data keeps the supplied non-None
bindings. -/
theorem overrideDefaults_lookup_present (data : RecordData) (k : String) (v : Value)
    (hnd : (data.map Prod.fst).Nodup) (h : data.lookup k = some v)
    (hv : v ≠ Value.none) :
    (overrideDefaults data).lookup k = some v :=
  foldl_override_present data DEFAULT_VALUES k v hnd h hv

/-- The float coercion pass acts pointwise on its field and leaves the
rest of the table alone. -/
theorem coerceFloatField_lookup (r : RecordData) (field k : String) :
    (coerceFloatField r field).lookup k =
      if k = field then (r.lookup field).map floatCoerceVal else r.lookup k := by
  unfold coerceFloatField
  cases hl : r.lookup field with
  | none =>
    by_cases he : k = field
    · subst he
      simp [hl]
    · simp [he]
  | some v =>
    dsimp only
    by_cases hv : v = Value.none
    · subst hv
      rw [if_pos rfl]
      by_cases he : k = field
      · subst he
        simp [hl, floatCoerceVal]
      · simp [he]
    · rw [if_neg hv]
      cases hpf : pyFloat v with
      | none =>
        rw [lookup_dictSet]
        by_cases he : k = field
        · simp [he, hl, floatCoerceVal, hv, hpf]
        · simp [he]
      | some q =>
        rw [lookup_dictSet]
        by_cases he : k = field
        · simp [he, hl, floatCoerceVal, hv, hpf]
        · simp [he]

/-- The integer coercion pass acts pointwise on its field and leaves the
rest of the table alone. -/
theorem coerceIntField_lookup (r : RecordData) (field k : String) :
    (coerceIntField r field).lookup k =
      if k = field then (r.lookup field).map intCoerceVal else r.lookup k := by
  unfold coerceIntField
  cases hl : r.lookup field with
  | none =>
    by_cases he : k = field
    · subst he
      simp [hl]
    · simp [he]
  | some v =>
    dsimp only
    by_cases hv : v = Value.none
    · subst hv
      rw [if_pos rfl]
      by_cases he : k = field
      · subst he
        simp [hl, intCoerceVal]
      · simp [he]
    · rw [if_neg hv]
      cases hpf : pyFloat v with
      | none =>
        rw [lookup_dictSet]
        by_cases he : k = field
        · simp [he, hl, intCoerceVal, hv, hpf]
        · simp [he]
      | some q =>
        rw [lookup_dictSet]
        by_cases he : k = field
        · simp [he, hl, intCoerceVal, hv, hpf]
        · simp [he]

/-- The boolean coercion pass acts pointwise on its field and leaves the
rest of the table alone. -/
theorem coerceBoolField_lookup (r : RecordData) (field k : String) :
    (coerceBoolField r field).lookup k =
      if k = field then (r.lookup field).map boolCoerceVal else r.lookup k := by
  unfold coerceBoolField
  cases hl : r.lookup field with
  | none =>
    by_cases he : k = field
    · subst he
      simp [hl]
    · simp [he]
  | some v =>
    dsimp only
    by_cases hv : v = Value.none
    · subst hv
      rw [if_pos rfl]
      by_cases he : k = field
      · subst he
        simp [hl, boolCoerceVal]
      · simp [he]
    · rw [if_neg hv, lookup_dictSet]
      by_cases he : k = field
      · simp [he, hl, boolCoerceVal, hv]
      · simp [he]

/-- A coercion pass folded over a duplicate-free field list touches each
key at most once. -/
theorem foldl_coerce_lookup (coerce : RecordData → String → RecordData)
    (cval : Value → Value)
    (hc : ∀ r field k, (coerce r field).lookup k =
      if k = field then (r.lookup field).map cval else r.lookup k)
    (fields : List String) (hnd : fields.Nodup) (r : RecordData) (k : String) :
    (fields.foldl coerce r).lookup k =
      if k ∈ fields then (r.lookup k).map cval else r.lookup k := by
  induction fields generalizing r with
  | nil => simp
  | cons f fs ih =>
    obtain ⟨hf, hfs⟩ := List.nodup_cons.1 hnd
    rw [List.foldl_cons, ih hfs]
    by_cases hin : k ∈ fs
    · have hne : k ≠ f := fun hc2 => hf (hc2 ▸ hin)
      rw [if_pos hin, if_pos (List.mem_cons_of_mem _ hin), hc, if_neg hne]
    · rw [if_neg hin]
      by_cases he : k = f
      · subst he
        rw [hc, if_pos rfl, if_pos (List.mem_cons_self _ _)]
      · rw [hc, if_neg he, if_neg (by simp [he, hin])]

/-- _prepare_data reads back as coerceChain applied to the override
table. -/
theorem prepareData_lookup (data : RecordData) (k : String) :
    (prepareData data).lookup k = coerceChain k ((overrideDefaults data).lookup k) := by
  unfold prepareData coerceChain
  dsimp only
  rw [foldl_coerce_lookup coerceBoolField boolCoerceVal coerceBoolField_lookup
        boolean_fields (by decide),
      foldl_coerce_lookup coerceIntField intCoerceVal coerceIntField_lookup
        integer_fields (by decide),
      foldl_coerce_lookup coerceFloatField floatCoerceVal coerceFloatField_lookup
        numeric_fields (by decide)]

/-- The three coercion passes fix every documented default value. -/
theorem coerceChain_default :
    ∀ k ∈ declaredVars, coerceChain k (DEFAULT_VALUES.lookup k) = DEFAULT_VALUES.lookup k := by
  decide

/-- Every declared variable has a binding in the prepared data. -/
theorem prepared_total (data : RecordData) (k : String) (h : k ∈ declaredVars) :
    ((prepareData data).lookup k).isSome := by
  rw [prepareData_lookup]
  have hov : ((overrideDefaults data).lookup k).isSome :=
    overrideDefaults_isSome data DEFAULT_VALUES k (lookup_isSome_of_mem_keys _ _ h)
  unfold coerceChain
  dsimp only
  split_ifs <;> simpa [Option.isSome_map'] using hov

/-! ## Claim C2: default safety of evaluation -/

/-- Arithmetic never produces a NameError. -/
theorem evalBinop_no_nameError (op : BinOp) (a b : Value) (s : String) :
    evalBinop op a b ≠ .error (.nameError s) := by
  unfold evalBinop
  split
  · split <;> (try split) <;> simp
  · split <;> simp

/-- Comparison never produces a NameError. -/
theorem evalCmp_no_nameError (op : CmpOp) (a b : Value) (s : String) :
    evalCmp op a b ≠ .error (.nameError s) := by
  unfold evalCmp
  split <;> (try split) <;> (try split) <;> simp

/-- A NameError from expression evaluation names a variable of the
expression that has no binding in the environment. -/
theorem evalExpr_nameError (e : Expr) (env : RecordData) (s : String)
    (h : evalExpr e env = .error (.nameError s)) :
    s ∈ exprVars e ∧ env.lookup s = Option.none := by
  induction e with
  | lit v => simp [evalExpr] at h
  | var n =>
    unfold evalExpr at h
    cases hl : env.lookup n with
    | some v =>
      rw [hl] at h
      simp at h
    | none =>
      rw [hl] at h
      simp only [Except.error.injEq, Fault.nameError.injEq] at h
      subst h
      exact ⟨by simp [exprVars], hl⟩
  | binop op a b iha ihb =>
    unfold evalExpr at h
    cases ha : evalExpr a env with
    | error f =>
      rw [ha] at h
      dsimp only at h
      simp only [Except.error.injEq] at h
      obtain ⟨h1, h2⟩ := iha (by rw [ha, h])
      exact ⟨List.mem_append_left _ h1, h2⟩
    | ok va =>
      rw [ha] at h
      dsimp only at h
      cases hb : evalExpr b env with
      | error f =>
        rw [hb] at h
        simp only [Except.error.injEq] at h
        obtain ⟨h1, h2⟩ := ihb (by rw [hb, h])
        exact ⟨List.mem_append_right _ h1, h2⟩
      | ok vb =>
        rw [hb] at h
        exact absurd h (evalBinop_no_nameError op va vb s)
  | cmp op a b iha ihb =>
    unfold evalExpr at h
    cases ha : evalExpr a env with
    | error f =>
      rw [ha] at h
      dsimp only at h
      simp only [Except.error.injEq] at h
      obtain ⟨h1, h2⟩ := iha (by rw [ha, h])
      exact ⟨List.mem_append_left _ h1, h2⟩
    | ok va =>
      rw [ha] at h
      dsimp only at h
      cases hb : evalExpr b env with
      | error f =>
        rw [hb] at h
        simp only [Except.error.injEq] at h
        obtain ⟨h1, h2⟩ := ihb (by rw [hb, h])
        exact ⟨List.mem_append_right _ h1, h2⟩
      | ok vb =>
        rw [hb] at h
        exact absurd h (evalCmp_no_nameError op va vb s)
  | boolAnd a b iha ihb =>
    unfold evalExpr at h
    cases ha : evalExpr a env with
    | error f =>
      rw [ha] at h
      dsimp only at h
      simp only [Except.error.injEq] at h
      obtain ⟨h1, h2⟩ := iha (by rw [ha, h])
      exact ⟨List.mem_append_left _ h1, h2⟩
    | ok va =>
      rw [ha] at h
      dsimp only at h
      by_cases ht : pyTruthy va = true
      · rw [if_pos ht] at h
        obtain ⟨h1, h2⟩ := ihb h
        exact ⟨List.mem_append_right _ h1, h2⟩
      · rw [if_neg ht] at h
        simp at h
  | boolOr a b iha ihb =>
    unfold evalExpr at h
    cases ha : evalExpr a env with
    | error f =>
      rw [ha] at h
      dsimp only at h
      simp only [Except.error.injEq] at h
      obtain ⟨h1, h2⟩ := iha (by rw [ha, h])
      exact ⟨List.mem_append_left _ h1, h2⟩
    | ok va =>
      rw [ha] at h
      dsimp only at h
      by_cases ht : pyTruthy va = true
      · rw [if_pos ht] at h
        simp at h
      · rw [if_neg ht] at h
        obtain ⟨h1, h2⟩ := ihb h
        exact ⟨List.mem_append_right _ h1, h2⟩
  | boolNot a iha =>
    unfold evalExpr at h
    cases ha : evalExpr a env with
    | error f =>
      rw [ha] at h
      dsimp only at h
      simp only [Except.error.injEq] at h
      obtain ⟨h1, h2⟩ := iha (by rw [ha, h])
      exact ⟨h1, h2⟩
    | ok va =>
      rw [ha] at h
      simp at h

/-- C2: for every parsed condition all of whose variables carry documented
defaults, evaluation against the prepared data never produces a NameError
fault — each declared variable absent from the supplied mapping reads as
its documented default (0, 0.0, false or the empty string by declared
type) — and evaluate returns a boolean. -/
theorem evaluate_default_safety (e : Expr) (data : RecordData)
    (h : ∀ v ∈ exprVars e, v ∈ declaredVars) :
    (∀ s, evalExpr e (prepareData data) ≠ .error (.nameError s))
    ∧ (∀ name ∈ declaredVars, data.lookup name = Option.none →
        (prepareData data).lookup name = DEFAULT_VALUES.lookup name)
    ∧ (∃ b, evalConditionExpr e data = .ret b) := by
  refine ⟨?_, ?_, ?_⟩
  · intro s hs
    obtain ⟨hmem, hnone⟩ := evalExpr_nameError e _ s hs
    have hsome := prepared_total data s (h s hmem)
    rw [hnone] at hsome
    simp at hsome
  · intro name hmem hnone
    rw [prepareData_lookup, overrideDefaults_lookup_absent data name hnone]
    exact coerceChain_default name hmem
  · unfold evalConditionExpr astevalRun
    cases hev : evalExpr e (prepareData data) with
    | error f => exact ⟨false, rfl⟩
    | ok v => cases v <;> exact ⟨_, rfl⟩

/-- Concrete instance of C2, the missing-variable scenario of the spec:
legal_cases_active is absent from a loan record, reads as its default 0,
and the condition evaluates to a boolean without any NameError. -/
theorem evaluate_default_safety_witness :
    (prepareData [("facility_type", Value.str "CRDTCARD")]).lookup "legal_cases_active" =
      DEFAULT_VALUES.lookup "legal_cases_active" ∧
    ∃ b, evalConditionExpr
      (Expr.cmp CmpOp.gt (Expr.var "legal_cases_active") (Expr.lit (Value.int 0)))
      [("facility_type", Value.str "CRDTCARD")] = .ret b :=
  ⟨(evaluate_default_safety
      (Expr.cmp CmpOp.gt (Expr.var "legal_cases_active") (Expr.lit (Value.int 0)))
      [("facility_type", Value.str "CRDTCARD")] (by decide)).2.1
      "legal_cases_active" (by decide) (by decide),
   (evaluate_default_safety
      (Expr.cmp CmpOp.gt (Expr.var "legal_cases_active") (Expr.lit (Value.int 0)))
      [("facility_type", Value.str "CRDTCARD")] (by decide)).2.2⟩

/-! ## Claim C7: which faults raise ParserError -/

/-- C7 fails as stated: an internal evaluation fault that is neither a
NameError nor a SyntaxError is re-raised as ParserError by the
except-Exception clause of evaluate (condition_parser.py lines 343 to
347), instead of evaluate returning false. -/
theorem evaluate_other_fault_counterexample :
    evaluateStr "x > 1".data (fun _ => PyOutcome.raised (PyExc.otherExc "boom")) =
      .parserError "Failed to evaluate condition: boom" ∧
    evaluateStr "x > 1".data (fun _ => PyOutcome.raised (PyExc.otherExc "boom")) ≠
      .ret false := by
  constructor <;> decide

/-- C7 amended: on a non-empty normalized condition evaluate raises
ParserError exactly when the interpreter raised a SyntaxError or any
exception other than NameError; a NameError makes evaluate return false,
and a returned value never raises — so no exception class other than
ParserError ever propagates. -/
theorem evaluate_parser_error_characterization (condition : List Char)
    (aeval : List Char → PyOutcome) :
    ((∃ m, evaluateStr condition aeval = .parserError m) ↔
      (normalizeCondition condition ≠ [] ∧
        ((∃ s, aeval (normalizeCondition condition) = .raised (.syntaxError s)) ∨
         (∃ s, aeval (normalizeCondition condition) = .raised (.otherExc s)))))
    ∧ (∀ s, aeval (normalizeCondition condition) = .raised (.nameError s) →
        evaluateStr condition aeval = .ret false)
    ∧ (∀ v, aeval (normalizeCondition condition) = .val v →
        ∃ b, evaluateStr condition aeval = .ret b) := by
  unfold evaluateStr
  dsimp only
  by_cases hn : normalizeCondition condition = []
  · rw [if_pos hn]
    refine ⟨?_, ?_, ?_⟩
    · constructor
      · rintro ⟨m, hm⟩
        exact absurd hm (by simp)
      · rintro ⟨hne, -⟩
        exact absurd hn hne
    · intro s _
      rfl
    · intro v _
      exact ⟨false, rfl⟩
  · rw [if_neg hn]
    refine ⟨?_, ?_, ?_⟩
    · constructor
      · rintro ⟨m, hm⟩
        refine ⟨hn, ?_⟩
        cases hout : aeval (normalizeCondition condition) with
        | val v =>
          rw [hout] at hm
          cases v <;> simp [evaluateDispatch] at hm
        | raised e =>
          cases e with
          | nameError s =>
            rw [hout] at hm
            simp [evaluateDispatch] at hm
          | syntaxError s => exact Or.inl ⟨s, rfl⟩
          | otherExc s => exact Or.inr ⟨s, rfl⟩
      · rintro ⟨-, hor⟩
        rcases hor with ⟨s, hs⟩ | ⟨s, hs⟩
        · rw [hs]
          exact ⟨_, rfl⟩
        · rw [hs]
          exact ⟨_, rfl⟩
    · intro s hs
      rw [hs]
      rfl
    · intro v hv
      rw [hv]
      cases v <;> exact ⟨_, rfl⟩

/-- Concrete instance of the amended C7: a NameError from the interpreter
makes evaluate return false rather than raise. -/
theorem evaluate_parser_error_characterization_witness :
    evaluateStr "x > 1".data (fun _ => PyOutcome.raised (PyExc.nameError "x")) =
      .ret false :=
  (evaluate_parser_error_characterization "x > 1".data
    (fun _ => PyOutcome.raised (PyExc.nameError "x"))).2.1 "x" rfl

/-! ## Claim C9: coercion of percent strings and coercion failure -/

/-- A character that fails the predicate survives dropWhile. -/
theorem mem_dropWhile_of_pred_false (l : List Char) (p : Char → Bool) (c : Char)
    (hc : p c = false) (h : c ∈ l) : c ∈ l.dropWhile p := by
  rcases List.mem_append.1 ((List.takeWhile_append_dropWhile p l) ▸ h) with h2 | h2
  · exact absurd (List.mem_takeWhile_imp h2) (by simp [hc])
  · exact h2

/-- A non-whitespace character survives whitespace trimming. -/
theorem mem_trimWs (s : List Char) (c : Char) (hc : c.isWhitespace = false)
    (h : c ∈ s) : c ∈ trimWs s := by
  unfold trimWs
  apply List.mem_reverse.2
  apply mem_dropWhile_of_pred_false _ _ _ hc
  apply List.mem_reverse.2
  exact mem_dropWhile_of_pred_false _ _ _ hc h

/-- A percent sign anywhere makes the unsigned-literal parse fail. -/
theorem parseUnsignedQ_percent (t : List Char) (h : '%' ∈ t) :
    parseUnsignedQ t = Option.none := by
  unfold parseUnsignedQ
  dsimp only
  have hrest : '%' ∈ t.dropWhile Char.isDigit :=
    mem_dropWhile_of_pred_false t Char.isDigit '%' (by decide) h
  have hne : t.dropWhile Char.isDigit ≠ [] := by
    intro hc
    rw [hc] at hrest
    simp at hrest
  rw [if_neg hne]
  by_cases hdot : (t.dropWhile Char.isDigit).head? = some '.'
  · rw [if_pos hdot]
    have htl : '%' ∈ (t.dropWhile Char.isDigit).tail := by
      cases hd : t.dropWhile Char.isDigit with
      | nil => exact absurd hd hne
      | cons c cs =>
        rw [hd] at hdot hrest
        simp only [List.head?_cons, Option.some.injEq] at hdot
        rcases List.mem_cons.1 hrest with he | h2
        · exact absurd (he.trans hdot) (by decide)
        · simpa using h2
    have h2 : '%' ∈ ((t.dropWhile Char.isDigit).tail).dropWhile Char.isDigit :=
      mem_dropWhile_of_pred_false _ _ _ (by decide) htl
    have h3 : (((t.dropWhile Char.isDigit).tail).dropWhile Char.isDigit).isEmpty = false := by
      cases hx : ((t.dropWhile Char.isDigit).tail).dropWhile Char.isDigit with
      | nil =>
        rw [hx] at h2
        simp at h2
      | cons d ds => rfl
    rw [if_neg (by simp [h3])]
  · rw [if_neg hdot]

/-- A percent sign anywhere makes the float parse fail, as Python float()
raises ValueError on such strings. -/
theorem parseFloatQ_percent (s : List Char) (h : '%' ∈ s) :
    parseFloatQ s = Option.none := by
  unfold parseFloatQ
  dsimp only
  have ht : '%' ∈ trimWs s := mem_trimWs s '%' (by decide) h
  have htail : ∀ c : Char, (trimWs s).head? = some c → '%' ≠ c →
      '%' ∈ (trimWs s).tail := by
    intro c hc hne2
    cases hx : trimWs s with
    | nil =>
      rw [hx] at hc
      simp at hc
    | cons d ds =>
      rw [hx] at hc ht
      simp only [List.head?_cons, Option.some.injEq] at hc
      rcases List.mem_cons.1 ht with he | h2
      · exact absurd (he.trans hc) hne2
      · simpa using h2
  by_cases h1 : (trimWs s).head? = some '+'
  · rw [if_pos h1]
    exact parseUnsignedQ_percent _ (htail '+' h1 (by decide))
  · rw [if_neg h1]
    by_cases h2 : (trimWs s).head? = some '-'
    · rw [if_pos h2, parseUnsignedQ_percent _ (htail '-' h2 (by decide))]
      rfl
    · rw [if_neg h2]
      exact parseUnsignedQ_percent _ ht

/-- C9 fails as stated: _prepare_data does not strip percent signs — the
string 85% fails float() coercion and falls back to 0.0, not to 85.0. -/
theorem percent_not_stripped_counterexample :
    (prepareData [("creditutilizationratio", Value.str "85%")]).lookup
        "creditutilizationratio" = some (Value.float 0) ∧
    ¬(prepareData [("creditutilizationratio", Value.str "85%")]).lookup
        "creditutilizationratio" = some (Value.float 85) := by
  constructor <;> decide

/-- C9 amended: a percent-bearing string always fails the float
conversion, and any value of a declared float or integer field whose
conversion fails falls back to that field's default (0.0 or 0) without
raising; the percent symbol is never stripped. -/
theorem coercion_failure_fallback :
    (∀ s : String, '%' ∈ s.data → pyFloat (Value.str s) = Option.none)
    ∧ (∀ (field : String) (v : Value) (data : RecordData),
        (data.map Prod.fst).Nodup → field ∈ numeric_fields →
        data.lookup field = some v → v ≠ Value.none → pyFloat v = Option.none →
        (prepareData data).lookup field = some (Value.float 0))
    ∧ (∀ (field : String) (v : Value) (data : RecordData),
        (data.map Prod.fst).Nodup → field ∈ integer_fields →
        data.lookup field = some v → v ≠ Value.none → pyFloat v = Option.none →
        (prepareData data).lookup field = some (Value.int 0)) := by
  refine ⟨fun s hs => parseFloatQ_percent s.data hs, ?_, ?_⟩
  · intro field v data hnd hf hl hv hpf
    rw [prepareData_lookup, overrideDefaults_lookup_present data field v hnd hl hv]
    have hni : field ∉ integer_fields ∧ field ∉ boolean_fields :=
      (by decide : ∀ f ∈ numeric_fields, f ∉ integer_fields ∧ f ∉ boolean_fields) field hf
    unfold coerceChain
    dsimp only
    rw [if_pos hf, if_neg hni.1, if_neg hni.2]
    simp [floatCoerceVal, hv, hpf]
  · intro field v data hnd hf hl hv hpf
    rw [prepareData_lookup, overrideDefaults_lookup_present data field v hnd hl hv]
    have hni : field ∉ numeric_fields ∧ field ∉ boolean_fields :=
      (by decide : ∀ f ∈ integer_fields, f ∉ numeric_fields ∧ f ∉ boolean_fields) field hf
    unfold coerceChain
    dsimp only
    rw [if_neg hni.1, if_pos hf, if_neg hni.2]
    simp [intCoerceVal, hv, hpf]

/-- Concrete instance of the amended C9: the value 85% of the declared
float field balance fails conversion and reads back as 0.0. -/
theorem coercion_failure_fallback_witness :
    pyFloat (Value.str "85%") = Option.none ∧
    (prepareData [("balance", Value.str "85%")]).lookup "balance" =
      some (Value.float 0) :=
  ⟨coercion_failure_fallback.1 "85%" (by decide),
   coercion_failure_fallback.2.1 "balance" (Value.str "85%")
     [("balance", Value.str "85%")] (by decide) (by decide) (by decide) (by decide)
     (by decide)⟩

end SIRS
